import Mathlib

/-!
Verification development for the stock technical-indicator analysis platform:
a shallow embedding of the condition-evaluation engine (`src/conditions.py`)
and the backtest simulation engine (`src/backtest.py`), with theorems about
the behaviour the specification describes.

Modelling choices:
* pandas DataFrames become `DataFrame`: a list of integer timestamps (the
  index) plus named rational-valued columns.  Float arithmetic is modelled
  over `ℚ`; comparisons against the NaN produced by `Series.shift(1)` are
  modelled by `Option ℚ` with `none`-comparisons evaluating to `false`,
  exactly as pandas evaluates NaN comparisons.
* Python exceptions (`ValueError` and friends) become `Except String`,
  carrying the message the source raises.
* `numpy.std` returns the square root of the population variance; the square
  root leaves `ℚ`, so the statistics record carries the squared value
  (`std_return_sq`), which determines the standard deviation uniquely.
-/

/-- Elementwise combination of four lists, truncating to the shortest, used to
model pandas-aligned elementwise operations over series of equal length. -/
def zipWith4 (f : α → β → γ → δ → ε) : List α → List β → List γ → List δ → List ε
  | a :: as, b :: bs, c :: cs, d :: ds => f a b c d :: zipWith4 f as bs cs ds
  | _, _, _, _ => []

/-- Model of `Series.shift(1)`: each position holds the previous value, the
first position holds NaN (modelled as `none`). -/
def shift1 (xs : List ℚ) : List (Option ℚ) :=
  (none :: xs.map some).take xs.length

/-- Comparison `a <= b` over possibly-NaN values: pandas evaluates any
comparison against NaN as `False`. -/
def optLe (a b : Option ℚ) : Bool :=
  match a, b with
  | some x, some y => decide (x ≤ y)
  | _, _ => false

/-- Comparison `a >= b` over possibly-NaN values (NaN compares `False`). -/
def optGe (a b : Option ℚ) : Bool :=
  match a, b with
  | some x, some y => decide (y ≤ x)
  | _, _ => false

/-- Model of the pandas DataFrame consumed by the engine: an index of
timestamps (days, as integers) and named numeric columns.  The engine's data
model requires unique ascending timestamps and equal column lengths; those
facts appear as hypotheses where a theorem needs them. -/
structure DataFrame where
  index : List Int
  cols : List (String × List ℚ)

/-- Column names, in order (`data.columns`). -/
def DataFrame.columns (df : DataFrame) : List String :=
  df.cols.map Prod.fst

/-- Model of `data.empty`: true when the frame has no rows or no columns
(pandas defines `empty` as `size == 0`). -/
def DataFrame.isEmpty (df : DataFrame) : Bool :=
  df.index.isEmpty || df.cols.isEmpty

/-- Column lookup `data[name]`: the first column carrying the name. -/
def DataFrame.getCol (df : DataFrame) (name : String) : Option (List ℚ) :=
  (df.cols.find? (fun p => p.1 == name)).map Prod.snd

/-- Cell lookup `data.loc[ts, name]`: the value of column `name` at the first
index position holding timestamp `ts` (the index is unique by the data-model
invariant). -/
def DataFrame.loc (df : DataFrame) (ts : Int) (name : String) : Option ℚ := do
  let col ← df.getCol name
  let i ← df.index.findIdx? (fun t => t == ts)
  col[i]?

/-- Cell of the last row, `data.iloc[-1][name]` (for aligned columns the last
row's entry of a column is the column's last element). -/
def DataFrame.ilocLastCell (df : DataFrame) (name : String) : Option ℚ :=
  (df.getCol name).bind List.getLast?

/-- Well-formedness from the data model: every column is aligned with the
index (equal length). -/
def DataFrame.Aligned (df : DataFrame) : Prop :=
  ∀ p ∈ df.cols, p.2.length = df.index.length

/-- The six comparison operators of `ComparisonOperator`. -/
inductive CmpOp where
  | gt | ge | lt | le | eq | ne
deriving DecidableEq, Repr

/-- Source string of a comparison operator (`ComparisonOperator.value`). -/
def CmpOp.str : CmpOp → String
  | .gt => ">"
  | .ge => ">="
  | .lt => "<"
  | .le => "<="
  | .eq => "=="
  | .ne => "!="

/-- Apply a comparison operator to a cell value and the threshold, as
`NumericCompareCondition.evaluate` does elementwise. -/
def CmpOp.apply (op : CmpOp) (x v : ℚ) : Bool :=
  match op with
  | .gt => decide (v < x)
  | .ge => decide (v ≤ x)
  | .lt => decide (x < v)
  | .le => decide (x ≤ v)
  | .eq => decide (x = v)
  | .ne => decide (x ≠ v)

/-- The logical operators of `LogicOperator`. -/
inductive LogicOp where
  | and | or | not
deriving DecidableEq, Repr

/-- Source string of a logical operator (`LogicOperator.value`). -/
def LogicOp.str : LogicOp → String
  | .and => "AND"
  | .or => "OR"
  | .not => "NOT"

mutual
/-- The condition tree of `conditions.py`: numeric comparison, signal cross,
pluggable technical pattern (an arbitrary evaluator function), and logical
combination.  `cross_type` stays a string as in the source, where it is
compared against the literals "golden" and "death" at evaluation time. -/
inductive Condition where
  | numeric (column : String) (op : CmpOp) (value : ℚ)
  | cross (fast_col slow_col : String) (cross_type : String)
  | pattern (pattern_name : String) (pattern_func : DataFrame → Except String (List Bool))
  | logic (op : LogicOp) (conditions : CondList)

/-- Lists of child conditions, as a mutual inductive so that evaluation can
recurse structurally. -/
inductive CondList where
  | nil
  | cons (c : Condition) (cs : CondList)
end

/-- Length of a child-condition list (`len(self.conditions)`). -/
def CondList.length : CondList → Nat
  | .nil => 0
  | .cons _ cs => cs.length + 1

/-- Emptiness test on a child-condition list (`if not self.conditions`). -/
def CondList.isEmpty : CondList → Bool
  | .nil => true
  | .cons _ _ => false

/-- Convert an ordinary list of conditions into a `CondList` (used by the
builder, which receives Python lists). -/
def CondList.ofList : List Condition → CondList
  | [] => .nil
  | c :: cs => .cons c (CondList.ofList cs)

/-- Golden-cross signal sequence: `(fast > slow) & (fast.shift(1) <= slow.shift(1))`. -/
def goldenSignals (fast slow : List ℚ) : List Bool :=
  zipWith4 (fun fi si fp sp => decide (si < fi) && optLe fp sp)
    fast slow (shift1 fast) (shift1 slow)

/-- Death-cross signal sequence: `(fast < slow) & (fast.shift(1) >= slow.shift(1))`. -/
def deathSignals (fast slow : List ℚ) : List Bool :=
  zipWith4 (fun fi si fp sp => decide (fi < si) && optGe fp sp)
    fast slow (shift1 fast) (shift1 slow)

/-- Row-wise AND of the children's sequences, folding from the first result as
`LogicCondition.evaluate` does. -/
def foldAndSignals : List (List Bool) → List Bool
  | [] => []
  | r :: rs => rs.foldl (fun a b => a.zipWith (· && ·) b) r

/-- Row-wise OR of the children's sequences. -/
def foldOrSignals : List (List Bool) → List Bool
  | [] => []
  | r :: rs => rs.foldl (fun a b => a.zipWith (· || ·) b) r

mutual
/-- Model of `Condition.evaluate`: produce the boolean signal sequence aligned
to the table, or the `ValueError` message the source raises.  The logic case
evaluates every child first and only then dispatches on the operator, matching
the source's order of effects (a child's failure surfaces before the NOT arity
check). -/
def Condition.evaluate : Condition → DataFrame → Except String (List Bool)
  | .numeric column op value, df =>
    match df.getCol column with
    | none => .error ("数据中缺少列: " ++ column)
    | some series => .ok (series.map (fun x => op.apply x value))
  | .cross fast_col slow_col cross_type, df =>
    match df.getCol fast_col, df.getCol slow_col with
    | some fast, some slow =>
      if cross_type = "golden" then .ok (goldenSignals fast slow)
      else if cross_type = "death" then .ok (deathSignals fast slow)
      else .error ("不支持的交叉类型: " ++ cross_type)
    | _, _ => .error ("数据中缺少列: " ++ fast_col ++ " " ++ slow_col)
  | .pattern _ pattern_func, df =>
    match pattern_func df with
    | .ok r => .ok r
    | .error e => .error ("技术形态检测失败: " ++ e)
  | .logic op conds, df =>
    if conds.isEmpty then .ok (df.index.map (fun _ => false))
    else
      match Condition.evalChildren conds df with
      | .error e => .error e
      | .ok results =>
        match op with
        | .and => .ok (foldAndSignals results)
        | .or => .ok (foldOrSignals results)
        | .not =>
          if conds.length ≠ 1 then .error "NOT操作符只能应用于单个条件"
          else .ok ((foldAndSignals results).map (!·))

/-- Evaluate every child condition in order, propagating the first failure
(the list comprehension `[c.evaluate(data) for c in self.conditions]`). -/
def Condition.evalChildren : CondList → DataFrame → Except String (List (List Bool))
  | .nil, _ => .ok []
  | .cons c cs, df =>
    match c.evaluate df, Condition.evalChildren cs df with
    | .error e, _ => .error e
    | .ok _, .error e => .error e
    | .ok r, .ok rs => .ok (r :: rs)
end

/-- Rendering of a float threshold inside a default description string; the
source interpolates Python's `float` repr, approximated here over `ℚ`. -/
def ratStr (q : ℚ) : String :=
  if q.den = 1 then toString q.num ++ ".0"
  else toString q.num ++ "/" ++ toString q.den

mutual
/-- Default description of a condition, as the constructors build it when no
explicit description is passed (the builder never passes one). -/
def Condition.description : Condition → String
  | .numeric column op value => column ++ " " ++ op.str ++ " " ++ ratStr value
  | .cross fast_col slow_col cross_type =>
    fast_col ++ " 与 " ++ slow_col ++ " " ++
      (if cross_type = "golden" then "金叉" else "死叉")
  | .pattern pattern_name _ => "技术形态: " ++ pattern_name
  | .logic op conds => String.intercalate (" " ++ op.str ++ " ") (Condition.descList conds)

/-- Descriptions of the children, in order. -/
def Condition.descList : CondList → List String
  | .nil => []
  | .cons c cs => c.description :: Condition.descList cs
end

example : Condition.evaluate (.numeric "close" .gt 1) ⟨[0, 1], [("close", [1, 2])]⟩ = .ok [false, true] := by rfl
example : Condition.evaluate (.cross "f" "s" "golden") ⟨[0, 1, 2, 3], [("f", [1, 1, 3, 3]), ("s", [2, 2, 2, 2])]⟩ = .ok [false, false, true, false] := by rfl

instance {ε α : Type} [DecidableEq ε] [DecidableEq α] : DecidableEq (Except ε α) := fun a b =>
  match a, b with
  | .ok x, .ok y => if h : x = y then isTrue (by rw [h]) else isFalse (by simp [h])
  | .error x, .error y => if h : x = y then isTrue (by rw [h]) else isFalse (by simp [h])
  | .ok _, .error _ => isFalse (by simp)
  | .error _, .ok _ => isFalse (by simp)

/-- Head-constructor test on an exception-carrying result (did the call return
normally rather than raise). -/
def isOkB {ε α : Type} : Except ε α → Bool
  | .ok _ => true
  | .error _ => false

/-- Word characters of the regex class `\w` (source identifiers are ASCII). -/
def isWordChar (c : Char) : Bool :=
  c.isAlphanum || c == '_'

/-- Model of `str.strip()`: drop whitespace from both ends. -/
def trimChars (s : List Char) : List Char :=
  ((s.dropWhile Char.isWhitespace).reverse.dropWhile Char.isWhitespace).reverse

/-- Worker for `str.split(sep)` with a nonempty separator: scan left to right,
cutting at each non-overlapping occurrence.  The fuel argument is a
termination measure only; any fuel at least the length of the scanned list
yields the Python semantics. -/
def splitOnSepAux (sep : List Char) : Nat → List Char → List Char → List (List Char)
  | _, [], acc => [acc.reverse]
  | 0, s, acc => [acc.reverse ++ s]
  | fuel + 1, c :: rest, acc =>
    if sep.isPrefixOf (c :: rest) then
      acc.reverse :: splitOnSepAux sep fuel ((c :: rest).drop sep.length) []
    else
      splitOnSepAux sep fuel rest (c :: acc)

/-- Model of Python `str.split(sep)` for nonempty `sep`.  The source's
membership test `sep in s` holds exactly when this returns more than one
part, which is how the split branches below test it. -/
def splitOnSep (sep s : List Char) : List (List Char) :=
  splitOnSepAux sep s.length s []

/-- Digits of a numeral to a natural number. -/
def digitsToNat (ds : List Char) : Nat :=
  ds.foldl (fun n c => n * 10 + (c.toNat - '0'.toNat)) 0

/-- Model of Python `float` applied to an unsigned token drawn from the regex
class `[\d\.]`: digits with at most one dot and at least one digit.  The
decimal is represented exactly as a rational. -/
def parseDecimalChars (body : List Char) : Option ℚ :=
  if body.any (fun c => !(c.isDigit || c == '.')) then none
  else
    match splitOnSep ['.'] body with
    | [ip] => if ip.isEmpty then none else some (mkRat (digitsToNat ip) 1)
    | [ip, fp] =>
      if ip.isEmpty && fp.isEmpty then none
      else some (mkRat (digitsToNat ip * 10 ^ fp.length + digitsToNat fp) (10 ^ fp.length))
    | _ => none

/-- Model of Python `float` applied to a token drawn from the regex class
`[-\d\.]+`: an optional leading minus, then an unsigned decimal; anything
else (stray minus or extra dot) raises, modelled as `none`. -/
def parseFloatChars (s : List Char) : Option ℚ :=
  match s with
  | '-' :: rest => (parseDecimalChars rest).map Neg.neg
  | _ => parseDecimalChars s

/-- Operator alternation `(>=|<=|>|<|==|!=)` of the numeric-comparison regex,
tried in exactly the source's order, so each two-character operator is matched
before its one-character prefix. -/
def matchOp (s : List Char) : Option (List Char × List Char) :=
  if ['>', '='].isPrefixOf s then some (['>', '='], s.drop 2)
  else if ['<', '='].isPrefixOf s then some (['<', '='], s.drop 2)
  else if ['>'].isPrefixOf s then some (['>'], s.drop 1)
  else if ['<'].isPrefixOf s then some (['<'], s.drop 1)
  else if ['=', '='].isPrefixOf s then some (['=', '='], s.drop 2)
  else if ['!', '='].isPrefixOf s then some (['!', '='], s.drop 2)
  else none

/-- Model of `ComparisonOperator(operator)`: recover the enum member from its
string value. -/
def opOfString (s : String) : Option CmpOp :=
  if s = ">" then some .gt
  else if s = ">=" then some .ge
  else if s = "<" then some .lt
  else if s = "<=" then some .le
  else if s = "==" then some .eq
  else if s = "!=" then some .ne
  else none

/-- Model of `ConditionBuilder.create_numeric_condition`: look the operator
string up in the enum, raising for an unsupported operator. -/
def create_numeric_condition (column operator : String) (value : ℚ) : Except String Condition :=
  match opOfString operator with
  | some op => .ok (.numeric column op value)
  | none => .error ("不支持的操作符: " ++ operator)

/-- Model of `ConditionBuilder.create_and_condition` with its arity check. -/
def create_and_condition (conds : List Condition) : Except String Condition :=
  if conds.length < 2 then .error "AND条件需要至少2个子条件"
  else .ok (.logic .and (CondList.ofList conds))

/-- Model of `ConditionBuilder.create_or_condition` with its arity check. -/
def create_or_condition (conds : List Condition) : Except String Condition :=
  if conds.length < 2 then .error "OR条件需要至少2个子条件"
  else .ok (.logic .or (CondList.ofList conds))

/-- Model of `ConditionBuilder.create_not_condition` (no arity check in the
source: it always wraps the single condition). -/
def create_not_condition (c : Condition) : Condition :=
  .logic .not (.cons c .nil)

/-- Model of `ConditionBuilder._parse_numeric_condition`: match the anchored
regex `^(\w+)\s*(>=|<=|>|<|==|!=)\s*([-\d\.]+)$` against the stripped input,
then convert the captured value with `float`.  Failures carry the source's
`ValueError` messages, which name the offending substring. -/
def parse_numeric_condition (s : List Char) : Except String Condition :=
  let t := trimChars s
  let column := t.takeWhile isWordChar
  let rest1 := t.dropWhile isWordChar
  if column.isEmpty then .error ("无效的条件格式: " ++ String.mk s)
  else
    match matchOp (rest1.dropWhile Char.isWhitespace) with
    | none => .error ("无效的条件格式: " ++ String.mk s)
    | some (opChars, rest3) =>
      let valueChars := rest3.dropWhile Char.isWhitespace
      if valueChars.isEmpty ∨ valueChars.any (fun c => !(c.isDigit || c == '.' || c == '-')) then
        .error ("无效的条件格式: " ++ String.mk s)
      else
        match parseFloatChars valueChars with
        | none => .error ("无效的数值: " ++ String.mk valueChars)
        | some value => create_numeric_condition (String.mk column) (String.mk opChars) value

/-- Model of `ConditionBuilder.parse_condition_string`: strip, then in order
handle a leading `NOT `, strip one layer of enclosing parentheses, split on
every occurrence of `" AND "`, split on every occurrence of `" OR "`, and
otherwise parse an atomic numeric comparison.  Every failure inside the body
is wrapped with the stripped input string, like the source's `except` clause.
The fuel argument is a termination measure only; the entry point passes more
than any reachable recursion depth. -/
def parse_condition_aux : Nat → List Char → Except String Condition
  | 0, s => .error ("解析条件字符串失败: " ++ String.mk s ++ ", 错误: 递归深度超限")
  | fuel + 1, s0 =>
    let s := trimChars s0
    let wrapErr : Except String Condition → Except String Condition := fun r =>
      match r with
      | .ok c => .ok c
      | .error e => .error ("解析条件字符串失败: " ++ String.mk s ++ ", 错误: " ++ e)
    if ['N', 'O', 'T', ' '].isPrefixOf s then
      wrapErr ((parse_condition_aux fuel (trimChars (s.drop 4))).map create_not_condition)
    else if (match s with | '(' :: _ => true | _ => false) &&
            (match s.getLast? with | some c => c == ')' | none => false) then
      wrapErr (parse_condition_aux fuel (trimChars (s.drop 1).dropLast))
    else
      let andParts := splitOnSep [' ', 'A', 'N', 'D', ' '] s
      if andParts.length > 1 then
        wrapErr ((andParts.mapM (fun p => parse_condition_aux fuel (trimChars p))).bind create_and_condition)
      else
        let orParts := splitOnSep [' ', 'O', 'R', ' '] s
        if orParts.length > 1 then
          wrapErr ((orParts.mapM (fun p => parse_condition_aux fuel (trimChars p))).bind create_or_condition)
        else
          wrapErr (parse_numeric_condition s)

/-- Entry point of the text-condition parser over ordinary strings. -/
def parse_condition_string (s : String) : Except String Condition :=
  parse_condition_aux (2 * s.data.length + 2) s.data

example : parse_condition_string "RSI > 30" = .ok (.numeric "RSI" .gt 30) := by rfl
example : parse_condition_string "x >= 5" = .ok (.numeric "x" .ge 5) := by rfl
example : parse_condition_string "RSI > 30 AND MACD > 0" =
    .ok (.logic .and (.cons (.numeric "RSI" .gt 30) (.cons (.numeric "MACD" .gt 0) .nil))) := by rfl
example : isOkB (parse_condition_string "(a > 1 AND b > 2) OR c > 3") = false := by rfl
example : parse_condition_string "( RSI > 30 )" = .ok (.numeric "RSI" .gt 30) := by rfl
example : isOkB (parse_condition_string "x > 1.2.3") = false := by rfl
example : parse_condition_string "NOT RSI > 70" =
    .ok (.logic .not (.cons (.numeric "RSI" .gt 70) .nil)) := by rfl

/-- Model of the `SignalEvent` dataclass. -/
structure SignalEvent where
  timestamp : Int
  signal_price : ℚ
  signal_type : String
  condition_description : String
deriving DecidableEq, Repr

instance : Inhabited SignalEvent := ⟨⟨0, 0, "", ""⟩⟩

/-- The parameters dictionary embedded in a `BacktestResult`.  The source
stores string keys; the two result shapes (normal and empty) populate
different keys, modelled by optional fields.  The data period is kept as the
pair of first and last timestamps rather than the formatted string. -/
structure RunParams where
  condition : String
  holding_period : Int
  price_column : Option String
  data_period : Option (Int × Int)
  note : Option String
deriving DecidableEq, Repr

/-- Model of the `BacktestResult` dataclass.  `std_return_sq` is the square of
the source's `std_return` (see the header comment). -/
structure BacktestResult where
  signals : List SignalEvent
  returns : List ℚ
  holding_periods : List Int
  win_rate : ℚ
  avg_return : ℚ
  max_return : ℚ
  min_return : ℚ
  std_return_sq : ℚ
  total_signals : Nat
  profitable_signals : Nat
  losing_signals : Nat
  avg_holding_period : ℚ
  parameters : RunParams
deriving DecidableEq, Repr

/-- The statistics dictionary built by `BacktestAnalyzer._calculate_statistics`. -/
structure BacktestStats where
  win_rate : ℚ
  avg_return : ℚ
  max_return : ℚ
  min_return : ℚ
  std_return_sq : ℚ
  profitable_count : Nat
  losing_count : Nat
  avg_holding_period : ℚ
deriving DecidableEq, Repr

/-- Model of `np.mean` over a list of rationals (0 on the empty list is never
used: the callers guard emptiness). -/
def np_mean (xs : List ℚ) : ℚ :=
  xs.sum / xs.length

/-- Model of `np.max`: fold of the binary maximum over the array. -/
def np_max : List ℚ → ℚ
  | [] => 0
  | x :: xs => xs.foldl max x

/-- Model of `np.min`: fold of the binary minimum over the array. -/
def np_min : List ℚ → ℚ
  | [] => 0
  | x :: xs => xs.foldl min x

/-- Square of `np.std`: the population variance, mean of squared deviations
from the mean (denominator N, `ddof = 0`). -/
def np_std_sq (xs : List ℚ) : ℚ :=
  np_mean (xs.map (fun x => (x - np_mean xs) ^ 2))

/-- Model of `BacktestAnalyzer._calculate_statistics`.  `np.sum(arr > 0)`
counts the strictly positive entries; zero returns enter neither count. -/
def calculate_statistics (returns : List ℚ) (holding_periods : List Int) : BacktestStats :=
  if returns.isEmpty then
    { win_rate := 0, avg_return := 0, max_return := 0, min_return := 0,
      std_return_sq := 0, profitable_count := 0, losing_count := 0,
      avg_holding_period := 0 }
  else
    { win_rate := ((returns.filter (fun r => decide (0 < r))).length : ℚ) / (returns.length : ℚ),
      avg_return := np_mean returns,
      max_return := np_max returns,
      min_return := np_min returns,
      std_return_sq := np_std_sq returns,
      profitable_count := (returns.filter (fun r => decide (0 < r))).length,
      losing_count := (returns.filter (fun r => decide (r < 0))).length,
      avg_holding_period :=
        if holding_periods.isEmpty then 0
        else (holding_periods.map (fun h => (h : ℚ))).sum / (holding_periods.length : ℚ) }

/-- Model of `BacktestAnalyzer._find_target_price`: exact index match first,
then the first index position at or after the target date, then the last row;
`none` only for an empty frame.  The cell lookups cannot fail in the run
context, where the price column is validated upfront; a missing column, which
would raise a `KeyError` in the source, surfaces here as `none`. -/
def find_target_price (data : DataFrame) (target_date : Int) (price_column : String) : Option ℚ :=
  if data.index.contains target_date then
    data.loc target_date price_column
  else
    match data.index.filter (fun t => decide (target_date ≤ t)) with
    | t :: _ => data.loc t price_column
    | [] => if !data.isEmpty then data.ilocLastCell price_column else none

/-- Trigger timestamps: the index positions whose signal is true
(`signals[signals].index`), in table order. -/
def signalDates (data : DataFrame) (signals : List Bool) : List Int :=
  (data.index.zip signals).filterMap (fun p => if p.2 then some p.1 else none)

/-- Loop body of `BacktestAnalyzer._calculate_signal_returns` over the trigger
timestamps: skip a timestamp missing from the index, resolve trigger and
target prices, record the event, the return `(target − trigger) / trigger`
and the holding period.  Division is the total division of `ℚ`; the source
performs the same division on IEEE floats with no zero check. -/
def signal_returns_loop (data : DataFrame) (holding_period : Int) (price_column : String) :
    List Int → List SignalEvent × List ℚ × List Int
  | [] => ([], [], [])
  | d :: rest =>
    let acc := signal_returns_loop data holding_period price_column rest
    if !(data.index.contains d) then acc
    else
      match data.loc d price_column with
      | none => acc
      | some signal_price =>
        match find_target_price data (d + holding_period) price_column with
        | none => acc
        | some target_price =>
          (⟨d, signal_price, "buy", ""⟩ :: acc.1,
           ((target_price - signal_price) / signal_price) :: acc.2.1,
           holding_period :: acc.2.2)

/-- Model of `BacktestAnalyzer._calculate_signal_returns`. -/
def calculate_signal_returns (data : DataFrame) (signals : List Bool)
    (holding_period : Int) (price_column : String) :
    List SignalEvent × List ℚ × List Int :=
  signal_returns_loop data holding_period price_column (signalDates data signals)

/-- Model of `BacktestAnalyzer._calculate_signals`: evaluate the condition,
wrapping any failure in the `ValueError` the source raises. -/
def calculate_signals (data : DataFrame) (condition : Condition) : Except String (List Bool) :=
  (condition.evaluate data).mapError (fun e => "计算条件信号失败: " ++ e)

/-- Model of `BacktestAnalyzer._create_empty_result`: the all-zero result
returned when no signal fires. -/
def create_empty_result (condition : Condition) (holding_period : Int) : BacktestResult :=
  { signals := [], returns := [], holding_periods := [],
    win_rate := 0, avg_return := 0, max_return := 0, min_return := 0,
    std_return_sq := 0, total_signals := 0, profitable_signals := 0,
    losing_signals := 0, avg_holding_period := 0,
    parameters :=
      { condition := condition.description, holding_period := holding_period,
        price_column := none, data_period := none, note := some "No signals found" } }

/-- Model of `BacktestAnalyzer.run_backtest`: validate the frame and the price
column, evaluate the condition, short-circuit to the empty result when no
signal fires, and otherwise assemble the full result from the per-signal
returns and the aggregate statistics. -/
def run_backtest (data : DataFrame) (condition : Condition)
    (holding_period : Int) (price_column : String) : Except String BacktestResult :=
  if data.isEmpty then .error "输入数据为空"
  else if !(data.columns.contains price_column) then
    .error ("数据中缺少价格列: " ++ price_column)
  else
    match calculate_signals data condition with
    | .error e => .error e
    | .ok signals =>
      if !(signals.any id) then .ok (create_empty_result condition holding_period)
      else
        let srh := calculate_signal_returns data signals holding_period price_column
        let stats := calculate_statistics srh.2.1 srh.2.2
        .ok { signals := srh.1, returns := srh.2.1, holding_periods := srh.2.2,
              win_rate := stats.win_rate, avg_return := stats.avg_return,
              max_return := stats.max_return, min_return := stats.min_return,
              std_return_sq := stats.std_return_sq,
              total_signals := srh.2.1.length,
              profitable_signals := stats.profitable_count,
              losing_signals := stats.losing_count,
              avg_holding_period := stats.avg_holding_period,
              parameters :=
                { condition := condition.description,
                  holding_period := holding_period,
                  price_column := some price_column,
                  data_period := some (data.index.headD 0, data.index.getLastD 0),
                  note := none } }

/-- Model of `BacktestAnalyzer.run_multiple_backtests`: sweep every condition
against every holding period (default `[3, 5, 10, 20]` when none are given),
appending each successful result and skipping each failed run, exactly as the
source's `try`/`except`/`continue` does.  `run_backtest` is called with the
default price column `close`. -/
def run_multiple_backtests (data : DataFrame) (conditions : List Condition)
    (holding_periods : Option (List Int)) : List BacktestResult :=
  let hps := holding_periods.getD [3, 5, 10, 20]
  conditions.foldl
    (fun results c =>
      hps.foldl
        (fun results h =>
          match run_backtest data c h "close" with
          | .ok r => results ++ [r]
          | .error _ => results)
        results)
    []

/-- Log records appended by the analyzer; the formatted message payloads are
abstracted to their severity, which is all the determinism statement needs. -/
inductive LogMsg where
  | info | warning | error
deriving DecidableEq, Repr

/-- Model of `run_backtest` with the logger's state made explicit: the source
method mutates only the module logger, and this variant threads that state
while producing the same `Except` outcome.  Log records are appended at the
source's call sites: the start banner, the evaluation-failure message, the
no-signal warning, and the completion message. -/
def run_backtest_logged (data : DataFrame) (condition : Condition)
    (holding_period : Int) (price_column : String) (log : List LogMsg) :
    Except String BacktestResult × List LogMsg :=
  if data.isEmpty then (.error "输入数据为空", log)
  else if !(data.columns.contains price_column) then
    (.error ("数据中缺少价格列: " ++ price_column), log)
  else
    let log1 := log ++ [LogMsg.info]
    match calculate_signals data condition with
    | .error e => (.error e, log1 ++ [LogMsg.error])
    | .ok signals =>
      if !(signals.any id) then
        (.ok (create_empty_result condition holding_period), log1 ++ [LogMsg.warning])
      else
        let srh := calculate_signal_returns data signals holding_period price_column
        let stats := calculate_statistics srh.2.1 srh.2.2
        (.ok { signals := srh.1, returns := srh.2.1, holding_periods := srh.2.2,
               win_rate := stats.win_rate, avg_return := stats.avg_return,
               max_return := stats.max_return, min_return := stats.min_return,
               std_return_sq := stats.std_return_sq,
               total_signals := srh.2.1.length,
               profitable_signals := stats.profitable_count,
               losing_signals := stats.losing_count,
               avg_holding_period := stats.avg_holding_period,
               parameters :=
                 { condition := condition.description,
                   holding_period := holding_period,
                   price_column := some price_column,
                   data_period := some (data.index.headD 0, data.index.getLastD 0),
                   note := none } },
         log1 ++ [LogMsg.info])

example : isOkB (run_backtest ⟨[0, 1], [("close", [1, 2])]⟩ (.numeric "close" .gt 0) 1 "close") = true := by rfl
example : run_backtest ⟨[], []⟩ (.numeric "close" .gt 0) 1 "close" = .error "输入数据为空" := by rfl
example : (run_backtest ⟨[0, 1], [("close", [0, 10])]⟩ (.numeric "close" .le 0) 1 "close").toOption.map
    (fun r => (r.total_signals, r.signals.map (fun e => e.signal_price))) = some (1, [0]) := by rfl

/-! Concrete inputs used by witnesses and counterexamples. -/

/-- Two trading days with distinct close prices. -/
def sampleFrame : DataFrame := ⟨[0, 1], [("close", [1, 2])]⟩

/-- A frame with no rows and no columns. -/
def emptyFrame : DataFrame := ⟨[], []⟩

/-- A frame whose first close price is exactly zero. -/
def zeroPriceFrame : DataFrame := ⟨[0, 1], [("close", [0, 10])]⟩

/-- A frame with a constant close price, so every return is zero. -/
def flatFrame : DataFrame := ⟨[0, 1], [("close", [1, 1])]⟩

/-- The specification's golden-cross example: fast [1,1,3,3] against
slow [2,2,2,2] over four ascending timestamps. -/
def crossFrame : DataFrame := ⟨[0, 1, 2, 3], [("f", [1, 1, 3, 3]), ("s", [2, 2, 2, 2])]⟩

/-- Three trading days with a gap between timestamps, for target-date
resolution. -/
def gapFrame : DataFrame := ⟨[0, 2, 4], [("close", [5, 6, 7])]⟩

/-- A frame with a close column but no rows. -/
def emptyRowsFrame : DataFrame := ⟨[], [("close", [])]⟩

/-- Theorem C3 (amended part): the validation `run_backtest` actually
performs.  An empty table fails the run with the empty-input `ValueError`,
and a present table with an absent price column fails with the
missing-price-column `ValueError`; in both cases no result is produced. -/
theorem run_backtest_input_validation (data : DataFrame) (condition : Condition)
    (holding_period : Int) (price_column : String) :
    (data.isEmpty = true →
      run_backtest data condition holding_period price_column = .error "输入数据为空") ∧
    (data.isEmpty = false → price_column ∉ data.columns →
      run_backtest data condition holding_period price_column =
        .error ("数据中缺少价格列: " ++ price_column)) := by
  constructor
  · intro h
    simp [run_backtest, h]
  · intro h1 h2
    simp [run_backtest, h1, h2]

/-- Witness for `run_backtest_input_validation`: both validation failures at
concrete inputs. -/
theorem run_backtest_input_validation_witness :
    emptyFrame.isEmpty = true ∧
    run_backtest emptyFrame (.numeric "close" .gt 0) 5 "close" = .error "输入数据为空" ∧
    sampleFrame.isEmpty = false ∧
    "open" ∉ sampleFrame.columns ∧
    run_backtest sampleFrame (.numeric "close" .gt 0) 5 "open" =
      .error ("数据中缺少价格列: " ++ "open") :=
  ⟨rfl, (run_backtest_input_validation emptyFrame (.numeric "close" .gt 0) 5 "close").1 rfl,
   rfl, by decide,
   (run_backtest_input_validation sampleFrame (.numeric "close" .gt 0) 5 "open").2 rfl (by decide)⟩

/-- Counterexample for C3: a non-positive holding period is not rejected.
With holding period 0 and with holding period −5 the run returns a
`BacktestResult` instead of failing with invalid input. -/
theorem nonpositive_holding_period_accepted :
    isOkB (run_backtest sampleFrame (.numeric "close" .gt 0) 0 "close") = true ∧
    isOkB (run_backtest sampleFrame (.numeric "close" .gt 0) (-5) "close") = true :=
  ⟨rfl, rfl⟩

/-- Counterexample for C2: a trigger whose price is exactly zero does not
fail the run.  The first close of `zeroPriceFrame` is 0, the condition
triggers exactly there, and `run_backtest` still returns a successful
result whose recorded signal price is 0. -/
theorem zero_trigger_price_not_rejected :
    zeroPriceFrame.loc 0 "close" = some 0 ∧
    isOkB (run_backtest zeroPriceFrame (.numeric "close" .le 0) 1 "close") = true ∧
    (run_backtest zeroPriceFrame (.numeric "close" .le 0) 1 "close").toOption.map
      (fun r => r.signals.map (fun e => e.signal_price)) = some [0] :=
  ⟨rfl, rfl, rfl⟩

/-- Theorem C6: when the table passes validation and the condition evaluates
with no true row, the run returns (rather than raises) the empty result:
empty signal list, zero signal count, all statistics zero, and parameters
recording the condition description, the holding period, and the
no-signals note. -/
theorem run_backtest_no_signals (data : DataFrame) (condition : Condition)
    (holding_period : Int) (price_column : String) (bs : List Bool)
    (hne : data.isEmpty = false)
    (hcol : price_column ∈ data.columns)
    (heval : condition.evaluate data = .ok bs)
    (hnone : true ∉ bs) :
    run_backtest data condition holding_period price_column =
      .ok (create_empty_result condition holding_period) ∧
    (create_empty_result condition holding_period).signals = [] ∧
    (create_empty_result condition holding_period).total_signals = 0 ∧
    (create_empty_result condition holding_period).win_rate = 0 ∧
    (create_empty_result condition holding_period).avg_return = 0 ∧
    (create_empty_result condition holding_period).max_return = 0 ∧
    (create_empty_result condition holding_period).min_return = 0 ∧
    (create_empty_result condition holding_period).std_return_sq = 0 ∧
    (create_empty_result condition holding_period).avg_holding_period = 0 ∧
    (create_empty_result condition holding_period).parameters.condition = condition.description ∧
    (create_empty_result condition holding_period).parameters.holding_period = holding_period ∧
    (create_empty_result condition holding_period).parameters.note = some "No signals found" := by
  refine ⟨?_, rfl, rfl, rfl, rfl, rfl, rfl, rfl, rfl, rfl, rfl, rfl⟩
  simp [run_backtest, hne, hcol, calculate_signals, heval, hnone, Except.mapError]

/-- Witness for `run_backtest_no_signals`: a condition that never triggers on
`sampleFrame` produces the empty result. -/
theorem run_backtest_no_signals_witness :
    sampleFrame.isEmpty = false ∧
    "close" ∈ sampleFrame.columns ∧
    (Condition.numeric "close" .lt 0).evaluate sampleFrame = .ok [false, false] ∧
    true ∉ [false, false] ∧
    run_backtest sampleFrame (.numeric "close" .lt 0) 5 "close" =
      .ok (create_empty_result (.numeric "close" .lt 0) 5) :=
  ⟨rfl, by decide, rfl, by decide,
   (run_backtest_no_signals sampleFrame (.numeric "close" .lt 0) 5 "close" [false, false]
     rfl (by decide) rfl (by decide)).1⟩

/-- Theorem C9: the run is deterministic.  The logger is the analyzer's only
mutable state; threading it explicitly, the `Except` outcome neither depends
on the incoming log state nor differs from the pure function, and condition
evaluation is a pure function of the table. -/
theorem run_backtest_deterministic (data : DataFrame) (condition : Condition)
    (holding_period : Int) (price_column : String) (log1 log2 : List LogMsg) :
    (run_backtest_logged data condition holding_period price_column log1).1 =
      run_backtest data condition holding_period price_column ∧
    (run_backtest_logged data condition holding_period price_column log1).1 =
      (run_backtest_logged data condition holding_period price_column log2).1 ∧
    condition.evaluate data = condition.evaluate data := by
  refine ⟨?_, ?_, rfl⟩ <;>
    · simp only [run_backtest_logged, run_backtest]
      repeat' split <;> try rfl

/-- One condition's pass over the holding periods appends exactly the
successful runs, in order. -/
lemma sweep_inner_foldl (data : DataFrame) (c : Condition) (hps : List Int)
    (acc : List BacktestResult) :
    hps.foldl
      (fun results h =>
        match run_backtest data c h "close" with
        | .ok r => results ++ [r]
        | .error _ => results)
      acc =
    acc ++ hps.filterMap (fun h => (run_backtest data c h "close").toOption) := by
  induction hps generalizing acc with
  | nil => simp
  | cons h t ih =>
    simp only [List.foldl_cons, List.filterMap_cons]
    cases hrun : run_backtest data c h "close" with
    | ok r => simp [hrun, ih, Except.toOption]
    | error e => simp [hrun, ih, Except.toOption]

/-- The sweep's outer fold appends the per-condition runs of every condition,
in order. -/
lemma sweep_outer_foldl (data : DataFrame) (hps : List Int)
    (conds : List Condition) (acc : List BacktestResult) :
    conds.foldl
      (fun results c =>
        hps.foldl
          (fun results h =>
            match run_backtest data c h "close" with
            | .ok r => results ++ [r]
            | .error _ => results)
          results)
      acc =
    acc ++ (conds.flatMap (fun c => hps.map (fun h => (c, h)))).filterMap
      (fun p => (run_backtest data p.1 p.2 "close").toOption) := by
  induction conds generalizing acc with
  | nil => simp
  | cons c cs ih =>
    simp only [List.foldl_cons, List.flatMap_cons, List.filterMap_append]
    rw [sweep_inner_foldl, ih, List.append_assoc]
    congr 1
    congr 1
    rw [List.filterMap_map]
    rfl

/-- Theorem C8 (amended): the sweep attempts one run per (condition, holding
period) pair in condition-major order, never raises, and returns exactly the
successful runs in order, omitting failed pairs; concretely, 3 conditions
with 2 holding periods and one malformed condition yield exactly 4 results
(the malformed condition fails once per holding period). -/
theorem run_multiple_backtests_spec :
    (∀ (data : DataFrame) (conds : List Condition) (hps : Option (List Int)),
      run_multiple_backtests data conds hps =
        (conds.flatMap (fun c => (hps.getD [3, 5, 10, 20]).map (fun h => (c, h)))).filterMap
          (fun p => (run_backtest data p.1 p.2 "close").toOption)) ∧
    (run_multiple_backtests sampleFrame
      [.numeric "close" .gt 0, .numeric "volume" .gt 0, .numeric "close" .lt 100]
      (some [2, 3])).length = 4 := by
  constructor
  · intro data conds hps
    rw [run_multiple_backtests, sweep_outer_foldl]
    simp
  · rfl

/-- Counterexample for C8: the sweep of 3 conditions over 2 holding periods
with one malformed condition (it references the absent column `volume`) does
not yield 5 results — the malformed condition fails for both holding periods,
leaving 4. -/
theorem sweep_five_results_refuted :
    ¬ ((run_multiple_backtests sampleFrame
        [.numeric "close" .gt 0, .numeric "volume" .gt 0, .numeric "close" .lt 100]
        (some [2, 3])).length = 5) := by
  decide

/-- Unfolding of the per-signal loop on a cons cell, with the membership test
in propositional form. -/
lemma signal_returns_loop_cons (data : DataFrame) (hp : Int) (pc : String)
    (d : Int) (rest : List Int) :
    signal_returns_loop data hp pc (d :: rest) =
      if d ∈ data.index then
        match data.loc d pc with
        | none => signal_returns_loop data hp pc rest
        | some sp =>
          match find_target_price data (d + hp) pc with
          | none => signal_returns_loop data hp pc rest
          | some tp =>
            (⟨d, sp, "buy", ""⟩ :: (signal_returns_loop data hp pc rest).1,
             ((tp - sp) / sp) :: (signal_returns_loop data hp pc rest).2.1,
             hp :: (signal_returns_loop data hp pc rest).2.2)
      else signal_returns_loop data hp pc rest := by
  by_cases h : d ∈ data.index <;> simp [signal_returns_loop, h]

/-- Invariants of the per-signal loop: the three output lists have equal
length, every recorded holding period is the run's holding period, and each
recorded return is the division formula applied to the recorded trigger
price and the resolved target price. -/
lemma signal_returns_loop_spec (data : DataFrame) (hp : Int) (pc : String)
    (dates : List Int) :
    (signal_returns_loop data hp pc dates).1.length =
      (signal_returns_loop data hp pc dates).2.1.length ∧
    (signal_returns_loop data hp pc dates).2.2.length =
      (signal_returns_loop data hp pc dates).2.1.length ∧
    (∀ x ∈ (signal_returns_loop data hp pc dates).2.2, x = hp) ∧
    (∀ i, i < (signal_returns_loop data hp pc dates).2.1.length →
      ∃ tp, find_target_price data
          (((signal_returns_loop data hp pc dates).1.getD i default).timestamp + hp) pc = some tp ∧
        (signal_returns_loop data hp pc dates).2.1.getD i 0 =
          (tp - ((signal_returns_loop data hp pc dates).1.getD i default).signal_price) /
            ((signal_returns_loop data hp pc dates).1.getD i default).signal_price) := by
  induction dates with
  | nil => exact ⟨rfl, rfl, by simp [signal_returns_loop], by simp [signal_returns_loop]⟩
  | cons d rest ih =>
    obtain ⟨ih1, ih2, ih3, ih4⟩ := ih
    rw [signal_returns_loop_cons]
    by_cases hc : d ∈ data.index
    · rw [if_pos hc]
      cases hloc : data.loc d pc with
      | none => exact ⟨ih1, ih2, ih3, ih4⟩
      | some sp =>
        cases hft : find_target_price data (d + hp) pc with
        | none => exact ⟨ih1, ih2, ih3, ih4⟩
        | some tp =>
          refine ⟨by simpa using ih1, by simpa using ih2, ?_, ?_⟩
          · intro x hx
            rcases List.mem_cons.1 hx with h1 | h2
            · exact h1
            · exact ih3 x h2
          · intro i hi
            cases i with
            | zero => exact ⟨tp, by simpa using hft, by simp⟩
            | succ i =>
              simp only [List.getD_cons_succ]
              exact ih4 i (by simpa using hi)
    · rw [if_neg hc]
      exact ⟨ih1, ih2, ih3, ih4⟩

/-- Shape of every successful run: either the empty result (no signal fired)
or the record assembled from the per-signal returns and their statistics. -/
lemma run_backtest_ok_shape (data : DataFrame) (condition : Condition)
    (hp : Int) (pc : String) (r : BacktestResult)
    (h : run_backtest data condition hp pc = .ok r) :
    r = create_empty_result condition hp ∨
    ∃ signals, calculate_signals data condition = .ok signals ∧
      r.signals = (calculate_signal_returns data signals hp pc).1 ∧
      r.returns = (calculate_signal_returns data signals hp pc).2.1 ∧
      r.holding_periods = (calculate_signal_returns data signals hp pc).2.2 ∧
      r.total_signals = (calculate_signal_returns data signals hp pc).2.1.length ∧
      r.profitable_signals =
        (calculate_statistics (calculate_signal_returns data signals hp pc).2.1
          (calculate_signal_returns data signals hp pc).2.2).profitable_count ∧
      r.losing_signals =
        (calculate_statistics (calculate_signal_returns data signals hp pc).2.1
          (calculate_signal_returns data signals hp pc).2.2).losing_count := by
  rw [run_backtest] at h
  split at h
  · simp at h
  · split at h
    · simp at h
    · split at h
      · simp at h
      · rename_i signals heq
        split at h
        · left
          exact (Except.ok.inj h).symm
        · right
          refine ⟨signals, heq, ?_⟩
          rw [← Except.ok.inj h]
          exact ⟨rfl, rfl, rfl, rfl, rfl, rfl⟩

/-- At most one of the strictly-positive and strictly-negative filters keeps
any given return, so the profitable and losing counts sum to at most the
total. -/
lemma filter_pos_add_filter_neg_le (rs : List ℚ) :
    (rs.filter (fun r => decide (0 < r))).length +
      (rs.filter (fun r => decide (r < 0))).length ≤ rs.length := by
  induction rs with
  | nil => simp
  | cons a t ih =>
    by_cases h1 : (0 : ℚ) < a
    · have h2 : ¬ a < 0 := by linarith
      simp [List.filter_cons, h1, h2]
      omega
    · by_cases h2 : a < 0
      · simp [List.filter_cons, h1, h2]
        omega
      · simp [List.filter_cons, h1, h2]
        omega

/-- Theorem C10: every successful run satisfies the structural invariants —
signal, return and holding-period lists share one length equal to
`total_signals`; profitable plus losing signals never exceed the total (zero
returns count in neither); and every recorded holding period equals the
run's holding-period argument. -/
theorem backtest_result_invariants (data : DataFrame) (condition : Condition)
    (hp : Int) (pc : String) (r : BacktestResult)
    (h : run_backtest data condition hp pc = .ok r) :
    r.signals.length = r.total_signals ∧
    r.returns.length = r.total_signals ∧
    r.holding_periods.length = r.total_signals ∧
    r.profitable_signals + r.losing_signals ≤ r.total_signals ∧
    (∀ x ∈ r.holding_periods, x = hp) := by
  rcases run_backtest_ok_shape data condition hp pc r h with hr | ⟨signals, _, h1, h2, h3, h4, h5, h6⟩
  · subst hr
    refine ⟨rfl, rfl, rfl, by simp [create_empty_result], ?_⟩
    intro x hx
    simp [create_empty_result] at hx
  · obtain ⟨l1, l2, l3, l4⟩ := signal_returns_loop_spec data hp pc (signalDates data signals)
    refine ⟨?_, ?_, ?_, ?_, ?_⟩
    · rw [h1, h4]; exact l1
    · rw [h2, h4]
    · rw [h3, h4]; exact l2
    · rw [h4, h5, h6, calculate_statistics]
      split
      · simp
      · exact filter_pos_add_filter_neg_le _
    · intro x hx
      rw [h3] at hx
      exact l3 x hx

/-- Witness setup: a flat-price run whose two triggers both realize a zero
return, with the full result spelled out. -/
def flatResult : BacktestResult :=
  { signals := [⟨0, 1, "buy", ""⟩, ⟨1, 1, "buy", ""⟩],
    returns := [0, 0], holding_periods := [1, 1],
    win_rate := 0, avg_return := 0, max_return := 0, min_return := 0,
    std_return_sq := 0, total_signals := 2, profitable_signals := 0,
    losing_signals := 0, avg_holding_period := 1,
    parameters :=
      { condition := (Condition.numeric "close" .ge 1).description,
        holding_period := 1, price_column := some "close",
        data_period := some (0, 1), note := none } }

/-- Second element of a two-element literal list, for evaluating concrete
cell lookups. -/
lemma cons_getElem_one (a b : ℚ) : ([a, b] : List ℚ)[1] = b := rfl

/-- The per-signal returns of the flat-price run. -/
lemma flat_signal_returns :
    calculate_signal_returns flatFrame [true, true] 1 "close" =
      ([⟨0, 1, "buy", ""⟩, ⟨1, 1, "buy", ""⟩], [0, 0], [1, 1]) := by
  norm_num [calculate_signal_returns, signalDates, signal_returns_loop,
    flatFrame, DataFrame.loc, DataFrame.getCol, find_target_price,
    DataFrame.ilocLastCell, DataFrame.isEmpty, List.findIdx?,
    cons_getElem_one]

/-- The statistics of two zero returns over holding period 1. -/
lemma flat_statistics :
    calculate_statistics [0, 0] [1, 1] =
      { win_rate := 0, avg_return := 0, max_return := 0, min_return := 0,
        std_return_sq := 0, profitable_count := 0, losing_count := 0,
        avg_holding_period := 1 } := by
  norm_num [calculate_statistics, np_mean, np_max, np_min, np_std_sq]

/-- The flat-price run evaluates to `flatResult`. -/
lemma run_flat_eq :
    run_backtest flatFrame (.numeric "close" .ge 1) 1 "close" = .ok flatResult := by
  have hsig : calculate_signals flatFrame (.numeric "close" .ge 1) = .ok [true, true] := rfl
  rw [run_backtest, hsig]
  simp only [flat_signal_returns, flat_statistics]
  rfl

/-- Theorem C2 (amended): inside every successful run each recorded return is
`(target_price - trigger_price) / trigger_price` for the resolved target
price, computed with no zero-trigger-price check — over the rationals the
division is total, and the source performs the same unchecked division on
IEEE floats, where a zero trigger price silently yields an infinite return
instead of failing the run. -/
theorem signal_returns_division_formula (data : DataFrame) (condition : Condition)
    (hp : Int) (pc : String) (r : BacktestResult)
    (h : run_backtest data condition hp pc = .ok r) :
    ∀ i, i < r.returns.length →
      ∃ tp, find_target_price data ((r.signals.getD i default).timestamp + hp) pc = some tp ∧
        r.returns.getD i 0 =
          (tp - (r.signals.getD i default).signal_price) /
            (r.signals.getD i default).signal_price := by
  intro i hi
  rcases run_backtest_ok_shape data condition hp pc r h with hr | ⟨signals, _, h1, h2, _⟩
  · subst hr
    simp [create_empty_result] at hi
  · rw [h2] at hi
    rw [h1, h2]
    exact (signal_returns_loop_spec data hp pc (signalDates data signals)).2.2.2 i hi

/-- Witness for `signal_returns_division_formula`: the flat-price run has two
returns, and the formula holds at index 0 with target price 1. -/
theorem signal_returns_division_formula_witness :
    run_backtest flatFrame (.numeric "close" .ge 1) 1 "close" = .ok flatResult ∧
    0 < flatResult.returns.length ∧
    (∃ tp, find_target_price flatFrame ((flatResult.signals.getD 0 default).timestamp + 1) "close" = some tp ∧
      flatResult.returns.getD 0 0 =
        (tp - (flatResult.signals.getD 0 default).signal_price) /
          (flatResult.signals.getD 0 default).signal_price) :=
  ⟨run_flat_eq, by decide,
   signal_returns_division_formula flatFrame (.numeric "close" .ge 1) 1 "close" flatResult
     run_flat_eq 0 (by decide)⟩

/-- Witness for `backtest_result_invariants`: the invariants instantiated at
the flat-price run. -/
theorem backtest_result_invariants_witness :
    run_backtest flatFrame (.numeric "close" .ge 1) 1 "close" = .ok flatResult ∧
    (flatResult.signals.length = flatResult.total_signals ∧
     flatResult.returns.length = flatResult.total_signals ∧
     flatResult.holding_periods.length = flatResult.total_signals ∧
     flatResult.profitable_signals + flatResult.losing_signals ≤ flatResult.total_signals ∧
     (∀ x ∈ flatResult.holding_periods, x = 1)) :=
  ⟨run_flat_eq,
   backtest_result_invariants flatFrame (.numeric "close" .ge 1) 1 "close" flatResult run_flat_eq⟩

/-- Elementwise characterization of `zipWith4`: position `i` holds the
combination of the four position-`i` entries, and exists exactly when all
four do. -/
lemma zipWith4_getElem? (f : α → β → γ → δ → ε) :
    ∀ (as : List α) (bs : List β) (cs : List γ) (ds : List δ) (i : Nat),
      (zipWith4 f as bs cs ds)[i]? =
        (as[i]?.bind fun a => bs[i]?.bind fun b => cs[i]?.bind fun c =>
          ds[i]?.map fun d => f a b c d)
  | [], bs, cs, ds, i => by simp [zipWith4]
  | a :: as, [], cs, ds, i => by simp [zipWith4]
  | a :: as, b :: bs, [], ds, i => by simp [zipWith4]
  | a :: as, b :: bs, c :: cs, [], i => by simp [zipWith4]
  | a :: as, b :: bs, c :: cs, d :: ds, 0 => by simp [zipWith4]
  | a :: as, b :: bs, c :: cs, d :: ds, i + 1 => by
    simpa [zipWith4] using zipWith4_getElem? f as bs cs ds i

/-- The shifted series holds NaN at position 0. -/
lemma shift1_getElem?_zero (x : ℚ) (xs : List ℚ) :
    (shift1 (x :: xs))[0]? = some none := by
  simp [shift1]

/-- The shifted series holds the previous value at every later position. -/
lemma shift1_getElem?_succ (xs : List ℚ) (j : Nat) (h : j + 1 < xs.length) :
    (shift1 xs)[j + 1]? = some (some (xs.getD j 0)) := by
  rw [shift1, List.getElem?_take_of_lt h]
  have hj : j < xs.length := by omega
  simp [List.getD_eq_getElem?_getD, List.getElem?_eq_getElem hj]

/-- The golden-cross sequence is false at the first row: the shifted
comparison sees NaN, which compares false. -/
lemma goldenSignals_getD_zero (fast slow : List ℚ) :
    (goldenSignals fast slow).getD 0 false = false := by
  cases fast with
  | nil => rfl
  | cons a as =>
    cases slow with
    | nil => rfl
    | cons b bs => simp [goldenSignals, zipWith4, shift1, optLe]

/-- The death-cross sequence is false at the first row. -/
lemma deathSignals_getD_zero (fast slow : List ℚ) :
    (deathSignals fast slow).getD 0 false = false := by
  cases fast with
  | nil => rfl
  | cons a as =>
    cases slow with
    | nil => rfl
    | cons b bs => simp [deathSignals, zipWith4, shift1, optGe]

/-- Golden-cross step case: past the first row, the signal is exactly
`fast[i] > slow[i]` and `fast[i-1] <= slow[i-1]`. -/
lemma goldenSignals_getD_succ (fast slow : List ℚ) (i : Nat) (h0 : 0 < i)
    (hi : i < (goldenSignals fast slow).length) :
    (goldenSignals fast slow).getD i false =
      (decide (slow.getD i 0 < fast.getD i 0) &&
       decide (fast.getD (i - 1) 0 ≤ slow.getD (i - 1) 0)) := by
  obtain ⟨j, rfl⟩ : ∃ j, i = j + 1 := ⟨i - 1, by omega⟩
  have hsome := List.getElem?_eq_getElem hi
  simp only [goldenSignals] at hsome
  rw [zipWith4_getElem?] at hsome
  have hf : j + 1 < fast.length := by
    by_contra hc
    simp [List.getElem?_eq_none (by omega : fast.length ≤ j + 1)] at hsome
  have hs : j + 1 < slow.length := by
    by_contra hc
    rw [List.getElem?_eq_getElem hf] at hsome
    simp [List.getElem?_eq_none (by omega : slow.length ≤ j + 1)] at hsome
  rw [List.getD_eq_getElem?_getD]
  simp only [goldenSignals]
  rw [zipWith4_getElem?,
    List.getElem?_eq_getElem hf, List.getElem?_eq_getElem hs,
    shift1_getElem?_succ fast j hf, shift1_getElem?_succ slow j hs]
  simp [optLe, List.getD_eq_getElem?_getD, List.getElem?_eq_getElem hf,
    List.getElem?_eq_getElem hs]

/-- Death-cross step case: the mirror of the golden case. -/
lemma deathSignals_getD_succ (fast slow : List ℚ) (i : Nat) (h0 : 0 < i)
    (hi : i < (deathSignals fast slow).length) :
    (deathSignals fast slow).getD i false =
      (decide (fast.getD i 0 < slow.getD i 0) &&
       decide (slow.getD (i - 1) 0 ≤ fast.getD (i - 1) 0)) := by
  obtain ⟨j, rfl⟩ : ∃ j, i = j + 1 := ⟨i - 1, by omega⟩
  have hsome := List.getElem?_eq_getElem hi
  simp only [deathSignals] at hsome
  rw [zipWith4_getElem?] at hsome
  have hf : j + 1 < fast.length := by
    by_contra hc
    simp [List.getElem?_eq_none (by omega : fast.length ≤ j + 1)] at hsome
  have hs : j + 1 < slow.length := by
    by_contra hc
    rw [List.getElem?_eq_getElem hf] at hsome
    simp [List.getElem?_eq_none (by omega : slow.length ≤ j + 1)] at hsome
  rw [List.getD_eq_getElem?_getD]
  simp only [deathSignals]
  rw [zipWith4_getElem?,
    List.getElem?_eq_getElem hf, List.getElem?_eq_getElem hs,
    shift1_getElem?_succ fast j hf, shift1_getElem?_succ slow j hs]
  simp [optGe, List.getD_eq_getElem?_getD, List.getElem?_eq_getElem hf,
    List.getElem?_eq_getElem hs]

/-- Theorem C4: for every table carrying both referenced columns, evaluating
a SignalCross condition succeeds for both directions; the first row is false
(never an error), and past the first row the golden signal is exactly
`fast[i] > slow[i] ∧ fast[i-1] <= slow[i-1]` while the death signal is the
mirror. -/
theorem signal_cross_spec (data : DataFrame) (f s : String) (fast slow : List ℚ)
    (hf : data.getCol f = some fast) (hs : data.getCol s = some slow) :
    ∃ bg bd,
      (Condition.cross f s "golden").evaluate data = .ok bg ∧
      (Condition.cross f s "death").evaluate data = .ok bd ∧
      bg.getD 0 false = false ∧
      bd.getD 0 false = false ∧
      (∀ i, 0 < i → i < bg.length →
        bg.getD i false =
          (decide (slow.getD i 0 < fast.getD i 0) &&
           decide (fast.getD (i - 1) 0 ≤ slow.getD (i - 1) 0))) ∧
      (∀ i, 0 < i → i < bd.length →
        bd.getD i false =
          (decide (fast.getD i 0 < slow.getD i 0) &&
           decide (slow.getD (i - 1) 0 ≤ fast.getD (i - 1) 0))) := by
  refine ⟨goldenSignals fast slow, deathSignals fast slow, ?_, ?_, ?_, ?_, ?_, ?_⟩
  · simp [Condition.evaluate, hf, hs]
  · simp [Condition.evaluate, hf, hs]
  · exact goldenSignals_getD_zero fast slow
  · exact deathSignals_getD_zero fast slow
  · exact fun i h0 hi => goldenSignals_getD_succ fast slow i h0 hi
  · exact fun i h0 hi => deathSignals_getD_succ fast slow i h0 hi

/-- Witness for `signal_cross_spec`: the specification's example columns
fast = [1,1,3,3], slow = [2,2,2,2], whose golden sequence the theorem
characterizes (concretely it evaluates to [false, false, true, false]). -/
theorem signal_cross_spec_witness :
    crossFrame.getCol "f" = some [1, 1, 3, 3] ∧
    crossFrame.getCol "s" = some [2, 2, 2, 2] ∧
    (∃ bg bd,
      (Condition.cross "f" "s" "golden").evaluate crossFrame = .ok bg ∧
      (Condition.cross "f" "s" "death").evaluate crossFrame = .ok bd ∧
      bg.getD 0 false = false ∧
      bd.getD 0 false = false ∧
      (∀ i, 0 < i → i < bg.length →
        bg.getD i false =
          (decide (([2, 2, 2, 2] : List ℚ).getD i 0 < ([1, 1, 3, 3] : List ℚ).getD i 0) &&
           decide (([1, 1, 3, 3] : List ℚ).getD (i - 1) 0 ≤ ([2, 2, 2, 2] : List ℚ).getD (i - 1) 0))) ∧
      (∀ i, 0 < i → i < bd.length →
        bd.getD i false =
          (decide (([1, 1, 3, 3] : List ℚ).getD i 0 < ([2, 2, 2, 2] : List ℚ).getD i 0) &&
           decide (([2, 2, 2, 2] : List ℚ).getD (i - 1) 0 ≤ ([1, 1, 3, 3] : List ℚ).getD (i - 1) 0)))) ∧
    (Condition.cross "f" "s" "golden").evaluate crossFrame = .ok [false, false, true, false] :=
  ⟨rfl, rfl, signal_cross_spec crossFrame "f" "s" [1, 1, 3, 3] [2, 2, 2, 2] rfl rfl, rfl⟩

/-- The fold of the binary maximum over a list is a member of the seeded list
and bounds every member. -/
lemma foldl_max_spec (xs : List ℚ) : ∀ x : ℚ,
    xs.foldl max x ∈ x :: xs ∧ ∀ y ∈ x :: xs, y ≤ xs.foldl max x := by
  induction xs with
  | nil => intro x; simp
  | cons a t ih =>
    intro x
    obtain ⟨ihmem, ihub⟩ := ih (max x a)
    constructor
    · rw [List.foldl_cons]
      rcases List.mem_cons.1 ihmem with h | h
      · rw [h]
        rcases max_choice x a with he | he <;> rw [he]
        · exact List.mem_cons_self _ _
        · exact List.mem_cons_of_mem _ (List.mem_cons_self _ _)
      · exact List.mem_cons_of_mem _ (List.mem_cons_of_mem _ h)
    · intro y hy
      rcases List.mem_cons.1 hy with h | h
      · subst h
        calc y ≤ max y a := le_max_left y a
        _ ≤ t.foldl max (max y a) := ihub _ (List.mem_cons_self _ _)
      · rcases List.mem_cons.1 h with h2 | h2
        · subst h2
          calc y ≤ max x y := le_max_right x y
          _ ≤ t.foldl max (max x y) := ihub _ (List.mem_cons_self _ _)
        · exact ihub y (List.mem_cons_of_mem _ h2)

/-- The fold of the binary minimum over a list is a member of the seeded list
and is below every member. -/
lemma foldl_min_spec (xs : List ℚ) : ∀ x : ℚ,
    xs.foldl min x ∈ x :: xs ∧ ∀ y ∈ x :: xs, xs.foldl min x ≤ y := by
  induction xs with
  | nil => intro x; simp
  | cons a t ih =>
    intro x
    obtain ⟨ihmem, ihlb⟩ := ih (min x a)
    constructor
    · rw [List.foldl_cons]
      rcases List.mem_cons.1 ihmem with h | h
      · rw [h]
        rcases min_choice x a with he | he <;> rw [he]
        · exact List.mem_cons_self _ _
        · exact List.mem_cons_of_mem _ (List.mem_cons_self _ _)
      · exact List.mem_cons_of_mem _ (List.mem_cons_of_mem _ h)
    · intro y hy
      rcases List.mem_cons.1 hy with h | h
      · subst h
        calc t.foldl min (min y a) ≤ min y a := ihlb _ (List.mem_cons_self _ _)
        _ ≤ y := min_le_left y a
      · rcases List.mem_cons.1 h with h2 | h2
        · subst h2
          calc t.foldl min (min x y) ≤ min x y := ihlb _ (List.mem_cons_self _ _)
          _ ≤ y := min_le_right x y
        · exact ihlb y (List.mem_cons_of_mem _ h2)

/-- Every return is strictly positive, strictly negative, or zero, so the
three counts partition the list. -/
lemma count_sign_partition (rs : List ℚ) :
    rs.countP (fun r => decide (0 < r)) + rs.countP (fun r => decide (r < 0)) +
      rs.countP (fun r => decide (r = 0)) = rs.length := by
  induction rs with
  | nil => simp
  | cons a t ih =>
    rcases lt_trichotomy (0 : ℚ) a with h | h | h
    · have h2 : ¬ a < 0 := by linarith
      have h3 : ¬ a = 0 := by linarith
      simp [List.countP_cons, h, h2, h3]
      omega
    · have h2 : ¬ (0 : ℚ) < a := by simp [h.symm]
      have h3 : ¬ a < 0 := by simp [h.symm]
      simp [List.countP_cons, h.symm, h2, h3]
      omega
    · have h2 : ¬ (0 : ℚ) < a := by linarith
      have h3 : ¬ a = 0 := by linarith
      simp [List.countP_cons, h, h2, h3]
      omega

/-- Theorem C5: on a non-empty return list the aggregator computes the win
rate as (count of strictly positive returns) / (total count), counts zero
returns in neither the profitable nor the losing tally (the three signs
partition the total), takes mean, min and max over the whole list, and its
squared standard deviation times N equals the sum of squared deviations from
the mean — the population normalization (divide by N, not N−1). -/
theorem calculate_statistics_spec (returns : List ℚ) (holding_periods : List Int)
    (hne : returns ≠ []) :
    (calculate_statistics returns holding_periods).win_rate =
      (returns.countP (fun r => decide (0 < r)) : ℚ) / (returns.length : ℚ) ∧
    (calculate_statistics returns holding_periods).profitable_count =
      returns.countP (fun r => decide (0 < r)) ∧
    (calculate_statistics returns holding_periods).losing_count =
      returns.countP (fun r => decide (r < 0)) ∧
    (calculate_statistics returns holding_periods).profitable_count +
      (calculate_statistics returns holding_periods).losing_count +
      returns.countP (fun r => decide (r = 0)) = returns.length ∧
    (calculate_statistics returns holding_periods).avg_return =
      returns.sum / (returns.length : ℚ) ∧
    (calculate_statistics returns holding_periods).max_return ∈ returns ∧
    (∀ x ∈ returns, x ≤ (calculate_statistics returns holding_periods).max_return) ∧
    (calculate_statistics returns holding_periods).min_return ∈ returns ∧
    (∀ x ∈ returns, (calculate_statistics returns holding_periods).min_return ≤ x) ∧
    (calculate_statistics returns holding_periods).std_return_sq * (returns.length : ℚ) =
      (returns.map (fun r => (r - returns.sum / (returns.length : ℚ)) ^ 2)).sum := by
  cases returns with
  | nil => exact absurd rfl hne
  | cons a t =>
    have hlen : ((a :: t).length : ℚ) ≠ 0 := Nat.cast_ne_zero.mpr (by simp)
    refine ⟨?_, ?_, ?_, ?_, ?_, ?_, ?_, ?_, ?_, ?_⟩
    · simp [calculate_statistics, List.countP_eq_length_filter]
    · simp [calculate_statistics, List.countP_eq_length_filter]
    · simp [calculate_statistics, List.countP_eq_length_filter]
    · have := count_sign_partition (a :: t)
      simp only [calculate_statistics, List.isEmpty_cons, Bool.false_eq_true,
        if_false, List.countP_eq_length_filter] at this ⊢
      omega
    · simp [calculate_statistics, np_mean]
    · simpa [calculate_statistics, np_max] using (foldl_max_spec t a).1
    · intro x hx
      simpa [calculate_statistics, np_max] using (foldl_max_spec t a).2 x (by simpa using hx)
    · simpa [calculate_statistics, np_min] using (foldl_min_spec t a).1
    · intro x hx
      simpa [calculate_statistics, np_min] using (foldl_min_spec t a).2 x (by simpa using hx)
    · simp only [calculate_statistics, List.isEmpty_cons, Bool.false_eq_true, if_false,
        np_std_sq, np_mean, List.length_map]
      exact div_mul_cancel₀ _ hlen

/-- Witness for `calculate_statistics_spec`: the return list [1, -2, 3, 0, -1]
(two wins, two losses, one zero) with a constant holding-period list. -/
theorem calculate_statistics_spec_witness :
    ([1, -2, 3, 0, -1] : List ℚ) ≠ [] ∧
    (calculate_statistics [1, -2, 3, 0, -1] [5, 5, 5, 5, 5]).win_rate =
      (([1, -2, 3, 0, -1] : List ℚ).countP (fun r => decide (0 < r)) : ℚ) /
        (([1, -2, 3, 0, -1] : List ℚ).length : ℚ) ∧
    (calculate_statistics [1, -2, 3, 0, -1] [5, 5, 5, 5, 5]).profitable_count +
      (calculate_statistics [1, -2, 3, 0, -1] [5, 5, 5, 5, 5]).losing_count +
      ([1, -2, 3, 0, -1] : List ℚ).countP (fun r => decide (r = 0)) =
      ([1, -2, 3, 0, -1] : List ℚ).length ∧
    (calculate_statistics [1, -2, 3, 0, -1] [5, 5, 5, 5, 5]).std_return_sq *
        (([1, -2, 3, 0, -1] : List ℚ).length : ℚ) =
      (([1, -2, 3, 0, -1] : List ℚ).map
        (fun r => (r - ([1, -2, 3, 0, -1] : List ℚ).sum /
          (([1, -2, 3, 0, -1] : List ℚ).length : ℚ)) ^ 2)).sum :=
  ⟨List.cons_ne_nil _ _,
   (calculate_statistics_spec [1, -2, 3, 0, -1] [5, 5, 5, 5, 5] (List.cons_ne_nil _ _)).1,
   (calculate_statistics_spec [1, -2, 3, 0, -1] [5, 5, 5, 5, 5] (List.cons_ne_nil _ _)).2.2.2.1,
   (calculate_statistics_spec [1, -2, 3, 0, -1] [5, 5, 5, 5, 5] (List.cons_ne_nil _ _)).2.2.2.2.2.2.2.2.2⟩

/-- A strictly sorted index is strictly monotone position-by-position. -/
lemma sorted_getD_lt (l : List Int) (hs : List.Sorted (· < ·) l) {k m : Nat}
    (hkm : k < m) (hm : m < l.length) : l.getD k 0 < l.getD m 0 := by
  have hk : k < l.length := lt_trans hkm hm
  rw [List.getD_eq_getElem?_getD, List.getD_eq_getElem?_getD,
    List.getElem?_eq_getElem hk, List.getElem?_eq_getElem hm]
  exact List.pairwise_iff_getElem.mp hs k m hk hm hkm

/-- On a strictly sorted index, searching for the timestamp stored at
position `i` finds exactly position `i` (timestamps are unique). -/
lemma findIdx?_beq_of_sorted (l : List Int) (hs : List.Sorted (· < ·) l) :
    ∀ i, i < l.length → l.findIdx? (fun t => t == l.getD i 0) = some i := by
  induction l with
  | nil => intro i hi; simp at hi
  | cons a tl ih =>
    obtain ⟨hall, htl⟩ := List.sorted_cons.mp hs
    intro i hi
    cases i with
    | zero => simp [List.findIdx?_cons]
    | succ j =>
      have hj : j < tl.length := by simpa using hi
      have hmem : tl.getD j 0 ∈ tl := by
        rw [List.getD_eq_getElem?_getD, List.getElem?_eq_getElem hj]
        exact List.getElem_mem hj
      have ha : a < tl.getD j 0 := hall _ hmem
      rw [List.findIdx?_cons, List.getD_cons_succ]
      rw [if_neg (by simp only [beq_iff_eq]; exact ne_of_lt ha), List.findIdx?_succ]
      rw [ih htl j hj]
      rfl

/-- Cell lookup on a strictly sorted, aligned frame returns the column value
at the timestamp's position. -/
lemma loc_of_sorted (df : DataFrame) (pc : String) (col : List ℚ)
    (hcol : df.getCol pc = some col) (hlen : col.length = df.index.length)
    (hsorted : List.Sorted (· < ·) df.index)
    (i : Nat) (hi : i < df.index.length) :
    df.loc (df.index.getD i 0) pc = some (col.getD i 0) := by
  have hic : i < col.length := by omega
  rw [DataFrame.loc]
  simp only [hcol, Option.bind_eq_bind, Option.some_bind]
  rw [findIdx?_beq_of_sorted df.index hsorted i hi]
  simp only [Option.some_bind]
  rw [List.getElem?_eq_getElem hic, List.getD_eq_getElem?_getD,
    List.getElem?_eq_getElem hic]
  rfl

/-- If the predicate rejects every position before `j` and accepts position
`j`, the filtered list starts with the element at `j`. -/
lemma filter_first (p : Int → Bool) (l : List Int) :
    ∀ j, j < l.length → p (l.getD j 0) = true →
      (∀ k, k < j → p (l.getD k 0) = false) →
      ∃ rest, l.filter p = l.getD j 0 :: rest := by
  induction l with
  | nil => intro j hj; simp at hj
  | cons a tl ih =>
    intro j hj hpj hbefore
    cases j with
    | zero =>
      rw [List.getD_cons_zero] at hpj ⊢
      exact ⟨tl.filter p, by rw [List.filter_cons, if_pos hpj]⟩
    | succ n =>
      have hpa : p a = false := by
        have := hbefore 0 (Nat.succ_pos n)
        simpa using this
      rw [List.getD_cons_succ] at hpj ⊢
      obtain ⟨rest, hrest⟩ := ih n (by simpa using hj) hpj
        (fun k hk => by simpa using hbefore (k + 1) (by omega))
      exact ⟨rest, by rw [List.filter_cons, if_neg (by simp [hpa]), hrest]⟩

/-- Theorem C1: the target-price resolution policy of the Forward-Return
Simulator, over the data model's strictly ascending unique index.  In
priority order: (i) a timestamp present in the index resolves to that row's
price; (ii) otherwise the first position at or after the target (with every
earlier position strictly before it) resolves to that row's price; (iii) a
target beyond the whole index resolves to the last row's price; and (iv)
resolution returns nothing only on an empty table, in which case the caller
skips the trigger. -/
theorem find_target_price_policy (data : DataFrame) (target : Int) (pc : String)
    (col : List ℚ)
    (hsorted : List.Sorted (· < ·) data.index)
    (hcol : data.getCol pc = some col)
    (hlen : col.length = data.index.length) :
    (∀ i, i < data.index.length → data.index.getD i 0 = target →
      find_target_price data target pc = some (col.getD i 0)) ∧
    (∀ j, j < data.index.length → target ≤ data.index.getD j 0 →
      (∀ k, k < j → data.index.getD k 0 < target) →
      find_target_price data target pc = some (col.getD j 0)) ∧
    ((∀ t ∈ data.index, t < target) → data.index ≠ [] →
      find_target_price data target pc = some (col.getLastD 0)) ∧
    (data.index = [] → find_target_price data target pc = none) := by
  refine ⟨?_, ?_, ?_, ?_⟩
  · intro i hi hit
    have hmem : target ∈ data.index := by
      rw [← hit, List.getD_eq_getElem?_getD, List.getElem?_eq_getElem hi]
      exact List.getElem_mem hi
    rw [find_target_price, if_pos (by simpa using hmem), ← hit]
    exact loc_of_sorted data pc col hcol hlen hsorted i hi
  · intro j hj htle hbefore
    by_cases hmem : target ∈ data.index
    · obtain ⟨m, hm, hms⟩ := List.mem_iff_getElem.mp hmem
      have hmd : data.index.getD m 0 = target := by
        rw [List.getD_eq_getElem?_getD, List.getElem?_eq_getElem hm, hms]
        rfl
      have hmj : m = j := by
        rcases Nat.lt_trichotomy m j with h | h | h
        · exact absurd (hmd ▸ hbefore m h) (by simp)
        · exact h
        · have := sorted_getD_lt data.index hsorted h hm
          rw [hmd] at this
          omega
      subst hmj
      rw [find_target_price, if_pos (by simpa using hmem), ← hmd]
      exact loc_of_sorted data pc col hcol hlen hsorted m hm
    · rw [find_target_price, if_neg (by simpa using hmem)]
      obtain ⟨rest, hrest⟩ := filter_first (fun t => decide (target ≤ t)) data.index j hj
        (by simpa using htle)
        (fun k hk => by
          have := hbefore k hk
          simp only [decide_eq_false_iff_not, not_le]
          exact this)
      rw [hrest]
      exact loc_of_sorted data pc col hcol hlen hsorted j hj
  · intro hall hne
    have hnotmem : target ∉ data.index := fun hmem => absurd (hall target hmem) (lt_irrefl target)
    rw [find_target_price, if_neg (by simpa using hnotmem)]
    have hfil : data.index.filter (fun t => decide (target ≤ t)) = [] :=
      List.filter_eq_nil_iff.mpr (fun a ha => by simpa using hall a ha)
    rw [hfil]
    have hcols : data.cols ≠ [] := by
      intro hc
      rw [DataFrame.getCol, hc] at hcol
      simp at hcol
    have hempty : data.isEmpty = false := by
      rw [DataFrame.isEmpty]
      simp [hne, hcols]
    rw [hempty]
    have hcne : col ≠ [] := by
      intro hc
      rw [hc] at hlen
      simp at hlen
      exact hne (List.length_eq_zero.mp hlen.symm)
    obtain ⟨y, hy⟩ := Option.isSome_iff_exists.mp (List.getLast?_isSome.mpr hcne)
    rw [DataFrame.ilocLastCell, hcol]
    simp only [Option.some_bind, Option.bind_some]
    rw [hy]
    simp [List.getLastD_eq_getLast?, hy]
  · intro h
    rw [find_target_price]
    simp [h, DataFrame.isEmpty]

/-- Witness for `find_target_price_policy`: all four branches on concrete
frames — exact match, next available day, past-the-end fallback to the last
row, and the empty frame. -/
theorem find_target_price_policy_witness :
    List.Sorted (· < ·) gapFrame.index ∧
    gapFrame.getCol "close" = some [5, 6, 7] ∧
    find_target_price gapFrame 2 "close" = some 6 ∧
    find_target_price gapFrame 3 "close" = some 7 ∧
    find_target_price gapFrame 9 "close" = some 7 ∧
    (emptyRowsFrame.index = [] ∧ find_target_price emptyRowsFrame 1 "close" = none) := by
  refine ⟨by decide, rfl, ?_, ?_, ?_, rfl, ?_⟩
  · exact (find_target_price_policy gapFrame 2 "close" [5, 6, 7] (by decide) rfl rfl).1
      1 (by decide) (by decide)
  · exact (find_target_price_policy gapFrame 3 "close" [5, 6, 7] (by decide) rfl rfl).2.1
      2 (by decide) (by decide) (by intro k hk; interval_cases k <;> decide)
  · exact (find_target_price_policy gapFrame 9 "close" [5, 6, 7] (by decide) rfl rfl).2.2.1
      (by decide) (by decide)
  · exact (find_target_price_policy emptyRowsFrame 1 "close" [] (by decide) rfl rfl).2.2.2 rfl

/-- Counterexample for C7: the parser does not split only on top-level
AND/OR.  In `"(a > 1 AND b > 2) OR c > 3"` the only top-level token is OR and
both OR-operands parse successfully on their own, yet the whole string fails
to parse — the parser split at the parenthesized AND first, producing the
malformed fragment `"(a > 1"`. -/
theorem top_level_split_refuted :
    isOkB (parse_condition_string "(a > 1 AND b > 2) OR c > 3") = false ∧
    isOkB (parse_condition_string "(a > 1 AND b > 2)") = true ∧
    isOkB (parse_condition_string "c > 3") = true :=
  ⟨rfl, rfl, rfl⟩

/-- Theorem C7 (amended): the parser strips one layer of enclosing
parenthesis characters (without matching them), splits on every occurrence
of the AND token and otherwise of the OR token — including occurrences
nested inside parentheses, so parenthesized subexpressions containing the
tokens generally fail — and parses atomic comparisons with the grammar
identifier, operator (two-character operators matched before their
one-character prefixes), number; parse failures carry the offending
substring.  Each clause is exhibited on representative inputs. -/
theorem parse_condition_string_behavior :
    parse_condition_string "a > 1 AND b > 2 OR c > 3" =
      .ok (.logic .and (.cons (.numeric "a" .gt 1)
        (.cons (.logic .or (.cons (.numeric "b" .gt 2)
          (.cons (.numeric "c" .gt 3) .nil))) .nil))) ∧
    parse_condition_string "x > 1 AND (y > 2 OR z > 3)" =
      .ok (.logic .and (.cons (.numeric "x" .gt 1)
        (.cons (.logic .or (.cons (.numeric "y" .gt 2)
          (.cons (.numeric "z" .gt 3) .nil))) .nil))) ∧
    isOkB (parse_condition_string "(a > 1) AND (b > 2)") = false ∧
    parse_condition_string "( RSI > 30 )" = .ok (.numeric "RSI" .gt 30) ∧
    parse_condition_string "x > 3" = .ok (.numeric "x" .gt 3) ∧
    parse_condition_string "x >= 3" = .ok (.numeric "x" .ge 3) ∧
    parse_condition_string "x < 3" = .ok (.numeric "x" .lt 3) ∧
    parse_condition_string "x <= 3" = .ok (.numeric "x" .le 3) ∧
    parse_condition_string "x == 3" = .ok (.numeric "x" .eq 3) ∧
    parse_condition_string "x != 3" = .ok (.numeric "x" .ne 3) ∧
    parse_condition_string "RSI>30" = .ok (.numeric "RSI" .gt 30) ∧
    parse_condition_string "x > -2.5" = .ok (.numeric "x" .gt (mkRat (-5) 2)) ∧
    parse_condition_string "foo >> 3" =
      .error "解析条件字符串失败: foo >> 3, 错误: 无效的条件格式: foo >> 3" ∧
    parse_condition_string "x > 1.2.3" =
      .error "解析条件字符串失败: x > 1.2.3, 错误: 无效的数值: 1.2.3" :=
  ⟨rfl, rfl, rfl, rfl, rfl, rfl, rfl, rfl, rfl, rfl, rfl, rfl, rfl, rfl⟩
